import Mathlib

/-!
Verification of the metrics evaluation module of the SSODL-MBA-PROJECT
repository (file advanced_metrics_evaluation.py).

The module computes forecast-accuracy metrics over two numeric sequences
(actual, predicted) held in a class together with optional prediction-interval
bounds, plus stateless FinOps KPI formulas over scalars.  We embed the
computations shallowly:

* machine floats are modelled by exact rationals wrapped in `PyFloat`, which
  adds the IEEE-754 non-finite values that numpy produces on division by zero
  (numpy emits RuntimeWarnings, which the module suppresses with
  warnings.filterwarnings, and returns nan or a signed infinity);
* a metric call is a `MetricResult`: a returned float, a returned Python None,
  or a raised exception (numpy broadcast ValueError, boolean-mask IndexError,
  sklearn input-validation ValueError);
* numpy elementwise binary operations broadcast a length-1 operand against the
  other operand and raise on any other length mismatch (`npBinop`);
* boolean-mask indexing a[mask] requires the mask length to equal the array
  length and raises otherwise (`boolMask`);
* np.mean and np.median of an empty array return nan (`npMean`, `npMedian`);
* Python round(x, d) is round-half-to-even at d decimal digits
  (`roundHalfEven`, `roundDp`), and round(nan) = nan, round(inf) = inf
  (`pyRound`).
-/

/-- A Python/numpy float64 value: a finite value (modelled exactly as a
rational), one of the infinities, or nan. -/
inductive PyFloat where
  | fin (q : ℚ)
  | inf
  | ninf
  | nan
deriving DecidableEq

/-- IEEE-754 division as numpy performs it on float64 scalars (the module
suppresses the RuntimeWarning): x/0 is nan when x = 0 and a signed infinity
otherwise; nan propagates. -/
def pyDiv : PyFloat → PyFloat → PyFloat
  | .fin x, .fin y =>
      if y = 0 then (if x = 0 then .nan else if 0 < x then .inf else .ninf)
      else .fin (x / y)
  | .nan, _ => .nan
  | _, .nan => .nan
  | .inf, .inf => .nan
  | .inf, .ninf => .nan
  | .ninf, .inf => .nan
  | .ninf, .ninf => .nan
  | .inf, .fin y => if 0 ≤ y then .inf else .ninf
  | .ninf, .fin y => if 0 ≤ y then .ninf else .inf
  | .fin _, .inf => .fin 0
  | .fin _, .ninf => .fin 0

/-- Multiplication by the positive literal 100, as used to turn ratios into
percentages; nan and the infinities are fixed points. -/
def pyMul100 : PyFloat → PyFloat
  | .fin q => .fin (q * 100)
  | .inf => .inf
  | .ninf => .ninf
  | .nan => .nan

/-- IEEE-754 less-or-equal on float64: any comparison with nan is false. -/
def pyLe : PyFloat → PyFloat → Bool
  | .nan, _ => false
  | _, .nan => false
  | .ninf, _ => true
  | _, .inf => true
  | .inf, _ => false
  | .fin _, .ninf => false
  | .fin q, .fin r => decide (q ≤ r)

/-- Round-half-to-even to the nearest integer, the tie-breaking rule of
Python round. -/
def roundHalfEven (x : ℚ) : ℤ :=
  if x - ⌊x⌋ < 1 / 2 then ⌊x⌋
  else if 1 / 2 < x - ⌊x⌋ then ⌊x⌋ + 1
  else if ⌊x⌋ % 2 = 0 then ⌊x⌋ else ⌊x⌋ + 1

/-- Python round(x, d): round-half-to-even at d decimal digits. -/
def roundDp (d : ℕ) (x : ℚ) : ℚ :=
  (roundHalfEven (x * 10 ^ d) : ℚ) / 10 ^ d

/-- Python round(x, d) on a float: nan and the infinities are returned
unchanged, finite values are rounded. -/
def pyRound (d : ℕ) : PyFloat → PyFloat
  | .fin q => .fin (roundDp d q)
  | x => x

/-- For 0 ≤ q, the integer floor of the real square root of q.  Writing
q = n/d in lowest terms, sqrt q = sqrt (n * d) / d, so the floor is the
integer division of Nat.sqrt (n * d) by d. -/
def ratFloorSqrt (q : ℚ) : ℤ :=
  ((Nat.sqrt (q.num.toNat * q.den) / q.den : ℕ) : ℤ)

/-- round(sqrt q, 2) for 0 ≤ q, computed exactly: with f = the floor of
100 * sqrt q, the fractional part is below (above) 1/2 exactly when
40000 * q is below (above) (2f+1)^2, and the tie goes to even. -/
def pySqrtRound2 (q : ℚ) : ℚ :=
  let f := ratFloorSqrt (10000 * q)
  ((if (40000 : ℚ) * q < (((2 * f + 1) ^ 2 : ℤ) : ℚ) then f
    else if (((2 * f + 1) ^ 2 : ℤ) : ℚ) < (40000 : ℚ) * q then f + 1
    else if f % 2 = 0 then f else f + 1 : ℤ) : ℚ) / 100

/-- A numpy elementwise binary operation on two 1-d arrays: equal lengths act
pointwise, a length-1 operand is broadcast across the other, and any other
length combination raises a ValueError (none). -/
def npBinop {α β γ : Type} [Inhabited α] [Inhabited β]
    (f : α → β → γ) (a : List α) (b : List β) : Option (List γ) :=
  if a.length = b.length then some (List.zipWith f a b)
  else if b.length = 1 then some (a.map (fun x => f x b.headI))
  else if a.length = 1 then some (b.map (fun y => f a.headI y))
  else none

/-- Boolean-mask indexing xs[mask]: requires the mask length to equal the
array length (otherwise numpy raises an IndexError), and keeps the entries at
true positions. -/
def boolMask {α : Type} (mask : List Bool) (xs : List α) : Option (List α) :=
  if xs.length = mask.length then
    some (((mask.zip xs).filter (fun q => q.1)).map (fun q => q.2))
  else none

/-- np.mean: the arithmetic mean, and nan on an empty array (numpy warns and
returns nan; the module suppresses warnings). -/
def npMean (l : List ℚ) : PyFloat :=
  if l.length = 0 then .nan else .fin (l.sum / l.length)

/-- Insert a value into a sorted list, keeping it sorted. -/
def insertSorted (x : ℚ) : List ℚ → List ℚ
  | [] => [x]
  | y :: ys => if x ≤ y then x :: y :: ys else y :: insertSorted x ys

/-- Sort a list of rationals ascending (np.median only needs the order
statistics, so any correct sort gives the numpy result). -/
def sortQ : List ℚ → List ℚ
  | [] => []
  | x :: xs => insertSorted x (sortQ xs)

/-- np.median: the middle order statistic, the mean of the two middle ones at
even length, and nan on an empty array. -/
def npMedian (l : List ℚ) : PyFloat :=
  if l.length = 0 then .nan
  else
    let s := sortQ l
    let n := l.length
    if n % 2 = 1 then .fin (s.getD (n / 2) 0)
    else .fin ((s.getD (n / 2 - 1) 0 + s.getD (n / 2) 0) / 2)

/-- The outcome of one metric call: a returned float, a returned Python None,
or a raised exception. -/
inductive MetricResult where
  | val (x : PyFloat)
  | pyNone
  | error
deriving DecidableEq

/-- The state built by AdvancedMetricsEvaluator.__init__ (lines 19-37):
the four arrays, the interval bounds staying None when not supplied. -/
structure AdvancedMetricsEvaluator where
  actual : List ℚ
  predicted : List ℚ
  forecast_lower : Option (List ℚ)
  forecast_upper : Option (List ℚ)
deriving DecidableEq

/-- calculate_mape (lines 41-46): mask = actual != 0;
round(np.mean(np.abs((actual[mask] - predicted[mask]) / actual[mask])) * 100, 2).
Both mask indexings appear; the one on predicted raises when the lengths
differ. -/
def calculate_mape (e : AdvancedMetricsEvaluator) : MetricResult :=
  let mask := e.actual.map (fun x => decide (x ≠ 0))
  match boolMask mask e.actual, boolMask mask e.predicted with
  | some a, some p =>
      .val (pyRound 2 (pyMul100 (npMean (List.zipWith (fun x y => |(x - y) / x|) a p))))
  | _, _ => .error

/-- calculate_smape (lines 48-54): numerator = np.abs(actual - predicted),
denominator = (np.abs(actual) + np.abs(predicted)) / 2, mask = denominator != 0;
round(np.mean(numerator[mask] / denominator[mask]) * 100, 2). -/
def calculate_smape (e : AdvancedMetricsEvaluator) : MetricResult :=
  match npBinop (fun x y => |x - y|) e.actual e.predicted,
        npBinop (fun x y => (|x| + |y|) / 2) e.actual e.predicted with
  | some numerator, some denominator =>
      let mask := denominator.map (fun d => decide (d ≠ 0))
      match boolMask mask numerator, boolMask mask denominator with
      | some n, some d =>
          .val (pyRound 2 (pyMul100 (npMean (List.zipWith (fun x y => x / y) n d))))
      | _, _ => .error
  | _, _ => .error

/-- calculate_wape (lines 56-59):
round((np.sum(np.abs(actual - predicted)) / np.sum(np.abs(actual))) * 100, 2).
No guard on the denominator: a zero sum of absolute actuals gives the IEEE
division result (nan or infinity). -/
def calculate_wape (e : AdvancedMetricsEvaluator) : MetricResult :=
  match npBinop (fun x y => |x - y|) e.actual e.predicted with
  | some diffs =>
      .val (pyRound 2 (pyMul100
        (pyDiv (.fin diffs.sum) (.fin ((e.actual.map (fun x => |x|)).sum)))))
  | none => .error

/-- calculate_mae (lines 61-64): round(mean_absolute_error(actual, predicted), 2).
sklearn validates its input: mismatched lengths or zero samples raise a
ValueError. -/
def calculate_mae (e : AdvancedMetricsEvaluator) : MetricResult :=
  if e.actual.length = e.predicted.length ∧ e.actual.length ≠ 0 then
    .val (pyRound 2 (npMean (List.zipWith (fun x y => |x - y|) e.actual e.predicted)))
  else .error

/-- calculate_rmse (lines 66-69):
round(np.sqrt(mean_squared_error(actual, predicted)), 2), with the same
sklearn input validation as MAE.  The square root of the rational mean of
squares is irrational in general, but its 2-decimal rounding is an exact
rational, computed by pySqrtRound2. -/
def calculate_rmse (e : AdvancedMetricsEvaluator) : MetricResult :=
  if e.actual.length = e.predicted.length ∧ e.actual.length ≠ 0 then
    .val (.fin (pySqrtRound2
      ((List.zipWith (fun x y => (x - y) ^ 2) e.actual e.predicted).sum / e.actual.length)))
  else .error

/-- calculate_mdape (lines 71-76): mask = actual != 0;
round(np.median(np.abs((actual[mask] - predicted[mask]) / actual[mask]) * 100), 2). -/
def calculate_mdape (e : AdvancedMetricsEvaluator) : MetricResult :=
  let mask := e.actual.map (fun x => decide (x ≠ 0))
  match boolMask mask e.actual, boolMask mask e.predicted with
  | some a, some p =>
      .val (pyRound 2 (npMedian (List.zipWith (fun x y => |(x - y) / x| * 100) a p)))
  | _, _ => .error

/-- calculate_r2 (lines 78-81): round(r2_score(actual, predicted), 3).
sklearn validates the input (mismatched lengths or zero samples raise), warns
and returns nan for fewer than two samples, and otherwise computes
1 - SS_res/SS_tot with the conventions: 1.0 when SS_res = 0 (even when
SS_tot = 0) and 0.0 when SS_res is nonzero but SS_tot = 0. -/
def calculate_r2 (e : AdvancedMetricsEvaluator) : MetricResult :=
  if e.actual.length = e.predicted.length ∧ e.actual.length ≠ 0 then
    if e.actual.length < 2 then .val .nan
    else
      let num := (List.zipWith (fun x y => (x - y) ^ 2) e.actual e.predicted).sum
      let m := e.actual.sum / e.actual.length
      let den := (e.actual.map (fun x => (x - m) ^ 2)).sum
      .val (pyRound 3 (.fin (if num = 0 then 1 else if den = 0 then 0 else 1 - num / den)))
  else .error

/-- calculate_bias (lines 83-86): round(np.mean(predicted - actual), 2). -/
def calculate_bias (e : AdvancedMetricsEvaluator) : MetricResult :=
  match npBinop (fun y x => y - x) e.predicted e.actual with
  | some diffs => .val (pyRound 2 (npMean diffs))
  | none => .error

/-- calculate_bias_percentage (lines 88-93): mean_actual = np.mean(actual),
bias = np.mean(predicted - actual); (bias / mean_actual) * 100 when
mean_actual != 0 (a nan mean compares unequal to 0 in Python, so the division
is taken and propagates nan), else 0; rounded to 2. -/
def calculate_bias_percentage (e : AdvancedMetricsEvaluator) : MetricResult :=
  match npBinop (fun y x => y - x) e.predicted e.actual with
  | some diffs =>
      let meanActual := npMean e.actual
      let bias := npMean diffs
      .val (pyRound 2 (if meanActual ≠ .fin 0 then pyMul100 (pyDiv bias meanActual) else .fin 0))
  | none => .error

/-- calculate_picp (lines 95-103): None when either bound is absent; otherwise
inside = np.sum((actual >= lower) & (actual <= upper)) with inclusive
endpoints, and round((inside / len(actual)) * 100, 2).  An empty actual array
divides zero by zero, giving nan. -/
def calculate_picp (e : AdvancedMetricsEvaluator) : MetricResult :=
  match e.forecast_lower, e.forecast_upper with
  | some lo, some hi =>
      match npBinop (fun x l => decide (l ≤ x)) e.actual lo,
            npBinop (fun x u => decide (x ≤ u)) e.actual hi with
      | some ge, some le =>
          match npBinop (fun g l => g && l) ge le with
          | some inside =>
              .val (pyRound 2 (pyMul100
                (pyDiv (.fin (inside.countP id)) (.fin e.actual.length))))
          | none => .error
      | _, _ => .error
  | _, _ => .pyNone

/-- calculate_mase (lines 105-110): mae_model = np.mean(np.abs(actual - predicted)),
mae_naive = np.mean(np.abs(naive_forecast)); mae_model / mae_naive when
mae_naive != 0 else np.inf; rounded to 3. -/
def calculate_mase (e : AdvancedMetricsEvaluator) (naive_forecast : List ℚ) : MetricResult :=
  match npBinop (fun x y => |x - y|) e.actual e.predicted with
  | some diffs =>
      let maeModel := npMean diffs
      let maeNaive := npMean (naive_forecast.map (fun x => |x|))
      .val (pyRound 3 (if maeNaive ≠ .fin 0 then pyDiv maeModel maeNaive else .inf))
  | none => .error

/-- get_all_forecast_metrics (lines 112-126): the literal dictionary built by
the source, in insertion order.  MASE is not among the entries (it needs the
naive_forecast argument). -/
def get_all_forecast_metrics (e : AdvancedMetricsEvaluator) : List (String × MetricResult) :=
  [("MAPE (%)", calculate_mape e),
   ("sMAPE (%)", calculate_smape e),
   ("WAPE (%)", calculate_wape e),
   ("MAE (INR)", calculate_mae e),
   ("RMSE (INR)", calculate_rmse e),
   ("MdAPE (%)", calculate_mdape e),
   ("R¬≤ Score", calculate_r2 e),
   ("Bias (INR)", calculate_bias e),
   ("Bias (%)", calculate_bias_percentage e),
   ("PICP (%)", calculate_picp e)]

/-- calculate_waste_rate (lines 130-134): round((idle/total) * 100 if
total > 0 else 0, 2). -/
def calculate_waste_rate (total_cost idle_cost : ℚ) : ℚ :=
  roundDp 2 (if 0 < total_cost then idle_cost / total_cost * 100 else 0)

/-- The dictionary returned by calculate_budget_variance. -/
structure BudgetVariance where
  variance_inr : ℚ
  variance_pct : ℚ
deriving DecidableEq

/-- calculate_budget_variance (lines 142-150): variance = actual - budgeted;
variance_pct = (variance/budgeted) * 100 when budgeted > 0 else 0; both
rounded to 2. -/
def calculate_budget_variance (actual_cost budgeted_cost : ℚ) : BudgetVariance :=
  let variance := actual_cost - budgeted_cost
  { variance_inr := roundDp 2 variance
    variance_pct := roundDp 2 (if 0 < budgeted_cost then variance / budgeted_cost * 100 else 0) }

/-- The outcome of calculate_cagr: the guard return of 0, a returned real
value, or a raised exception. -/
inductive CagrOutcome where
  | guardZero
  | ret (base exponent : ℚ)
  | raisesComplexRound (base exponent : ℚ)
deriving DecidableEq

/-- calculate_cagr (lines 170-176).  When initial_cost ≤ 0 or num_years ≤ 0
the guard returns 0.  Otherwise Python evaluates
round((((final/initial) ** (1/num_years)) - 1) * 100, 2): a float power with
negative base and non-integral exponent is a complex number in Python 3, on
which round raises a TypeError (raisesComplexRound); with a nonnegative base,
or an integral exponent, the power is real and the rounded real is returned
(ret carries base and exponent; the value round((base ^ exponent - 1) * 100, 2)
is irrational in general and is not materialised in this rational model).
Integrality of the exponent 1/num_years is den = 1 of the rational. -/
def calculate_cagr (initial_cost final_cost num_years : ℚ) : CagrOutcome :=
  if initial_cost ≤ 0 ∨ num_years ≤ 0 then .guardZero
  else if final_cost / initial_cost < 0 ∧ (1 / num_years).den ≠ 1 then
    .raisesComplexRound (final_cost / initial_cost) (1 / num_years)
  else .ret (final_cost / initial_cost) (1 / num_years)

/-- The count in the formula of claim C10, written the way the spec reads:
the number of positions at which lower ≤ actual ≤ upper, with inclusive
endpoints on both sides. -/
def specInsideCount (a lo hi : List ℚ) : ℕ :=
  ((a.zip lo).zip hi).countP (fun t => decide (t.1.2 ≤ t.1.1 ∧ t.1.1 ≤ t.2))

/-! ### General helper lemmas -/

theorem roundHalfEven_ge_floor (x : ℚ) : ⌊x⌋ ≤ roundHalfEven x := by
  unfold roundHalfEven
  split_ifs <;> omega

theorem roundHalfEven_le_floor_add_one (x : ℚ) : roundHalfEven x ≤ ⌊x⌋ + 1 := by
  unfold roundHalfEven
  split_ifs <;> omega

theorem roundHalfEven_mono {x y : ℚ} (h : x ≤ y) : roundHalfEven x ≤ roundHalfEven y := by
  rcases lt_or_le ⌊x⌋ ⌊y⌋ with hf | hf
  · calc roundHalfEven x ≤ ⌊x⌋ + 1 := roundHalfEven_le_floor_add_one x
      _ ≤ ⌊y⌋ := by omega
      _ ≤ roundHalfEven y := roundHalfEven_ge_floor y
  · have hfe : ⌊x⌋ = ⌊y⌋ := le_antisymm (Int.floor_le_floor h) hf
    unfold roundHalfEven
    rw [hfe]
    split_ifs <;> first | omega | (exfalso; linarith)

theorem roundDp_mono (d : ℕ) {x y : ℚ} (h : x ≤ y) : roundDp d x ≤ roundDp d y := by
  unfold roundDp
  have h10 : (0 : ℚ) < 10 ^ d := by positivity
  apply (div_le_div_iff_of_pos_right h10).mpr
  exact_mod_cast roundHalfEven_mono (mul_le_mul_of_nonneg_right h (le_of_lt h10))

theorem roundHalfEven_intCast (n : ℤ) : roundHalfEven (n : ℚ) = n := by
  unfold roundHalfEven
  rw [Int.floor_intCast]
  simp

theorem roundDp_zero (d : ℕ) : roundDp d 0 = 0 := by
  unfold roundDp
  rw [zero_mul, show ((0 : ℚ)) = ((0 : ℤ) : ℚ) by norm_num, roundHalfEven_intCast]
  simp

theorem npBinop_length_eq {α β γ : Type} [Inhabited α] [Inhabited β]
    (f : α → β → γ) {a : List α} {b : List β} (h : a.length = b.length) :
    npBinop f a b = some (List.zipWith f a b) := by
  simp [npBinop, h]

theorem npBinop_none {α β γ : Type} [Inhabited α] [Inhabited β]
    (f : α → β → γ) {a : List α} {b : List β}
    (h : a.length ≠ b.length) (ha : a.length ≠ 1) (hb : b.length ≠ 1) :
    npBinop f a b = none := by
  simp [npBinop, h, ha, hb]

theorem boolMask_some {α : Type} {mask : List Bool} {xs : List α}
    (h : xs.length = mask.length) :
    boolMask mask xs = some (((mask.zip xs).filter (fun q => q.1)).map (fun q => q.2)) := by
  simp [boolMask, h]

theorem boolMask_none {α : Type} {mask : List Bool} {xs : List α}
    (h : xs.length ≠ mask.length) : boolMask mask xs = none := by
  simp [boolMask, h]

theorem boolMask_map_self (p : ℚ → Bool) (l : List ℚ) :
    boolMask (l.map p) l = some (l.filter p) := by
  rw [boolMask_some (by simp)]
  congr 1
  induction l with
  | nil => rfl
  | cons x xs ih =>
      by_cases hp : p x <;> simp [List.filter_cons, hp, ih]

theorem forall_mem_zipWith {α β γ : Type} {f : α → β → γ} {P : γ → Prop} :
    ∀ {l₁ : List α} {l₂ : List β}, (∀ x ∈ l₁, ∀ y ∈ l₂, P (f x y)) →
    ∀ z ∈ List.zipWith f l₁ l₂, P z
  | [], _, _ => by simp
  | _ :: _, [], _ => by simp
  | x :: xs, y :: ys, h => by
      intro z hz
      rcases List.mem_cons.mp hz with hz | hz
      · exact hz ▸ h x (by simp) y (by simp)
      · exact forall_mem_zipWith (fun u hu v hv => h u (List.mem_cons_of_mem _ hu) v
          (List.mem_cons_of_mem _ hv)) z hz

theorem npMean_zeros {l : List ℚ} (h : l ≠ []) (hz : ∀ x ∈ l, x = 0) :
    npMean l = .fin 0 := by
  have : l.sum = 0 := List.sum_eq_zero hz
  simp [npMean, this, h]

theorem npMean_ne_nil {l : List ℚ} (h : l ≠ []) :
    npMean l = .fin (l.sum / l.length) := by
  simp [npMean, h]

theorem roundDp_two_100 : roundDp 2 (100 : ℚ) = 100 := by
  norm_num [roundDp, roundHalfEven]

/-! ### FinOps KPI claims -/

/-- C7: calculate_waste_rate(total_cost, idle_cost) returns
idle_cost / total_cost * 100 rounded to 2 decimals when total_cost > 0 and 0
whenever total_cost ≤ 0; in particular 0 when idle_cost = 0 (total_cost > 0)
and 100 when idle_cost = total_cost (total_cost > 0). -/
theorem waste_rate_correct (total idle : ℚ) :
    (0 < total → calculate_waste_rate total idle = roundDp 2 (idle / total * 100)) ∧
    (total ≤ 0 → calculate_waste_rate total idle = 0) ∧
    (0 < total → calculate_waste_rate total 0 = 0) ∧
    (0 < total → calculate_waste_rate total total = 100) := by
  refine ⟨fun h => ?_, fun h => ?_, fun h => ?_, fun h => ?_⟩
  · simp [calculate_waste_rate, h]
  · simp [calculate_waste_rate, not_lt.mpr h, roundDp_zero]
  · simp [calculate_waste_rate, h, roundDp_zero]
  · rw [calculate_waste_rate, if_pos h, div_self (ne_of_gt h), one_mul, roundDp_two_100]

/-- Witness for C7 at total_cost = 4, idle_cost = 4. -/
theorem waste_rate_correct_witness : (0 : ℚ) < 4 ∧ calculate_waste_rate 4 4 = 100 :=
  ⟨by norm_num, (waste_rate_correct 4 4).2.2.2 (by norm_num)⟩

/-- C8: calculate_budget_variance returns the rounded absolute variance
actual - budgeted and the rounded percentage variance
(actual - budgeted) / budgeted * 100 (0 when budgeted ≤ 0), and the sign
convention gives variance_inr = 10, variance_pct = 10 at actual = 110,
budgeted = 100. -/
theorem budget_variance_correct (a b : ℚ) :
    (calculate_budget_variance a b).variance_inr = roundDp 2 (a - b) ∧
    (0 < b → (calculate_budget_variance a b).variance_pct = roundDp 2 ((a - b) / b * 100)) ∧
    (b ≤ 0 → (calculate_budget_variance a b).variance_pct = 0) ∧
    calculate_budget_variance 110 100 = ⟨10, 10⟩ := by
  refine ⟨rfl, fun h => ?_, fun h => ?_, ?_⟩
  · simp [calculate_budget_variance, h]
  · simp [calculate_budget_variance, not_lt.mpr h, roundDp_zero]
  · norm_num [calculate_budget_variance, roundDp, roundHalfEven]

/-- Witness for C8 at actual = 110, budgeted = 100. -/
theorem budget_variance_correct_witness :
    (0 : ℚ) < 100 ∧
    (calculate_budget_variance 110 100).variance_pct = roundDp 2 ((110 - 100) / 100 * 100) :=
  ⟨by norm_num, (budget_variance_correct 110 100).2.1 (by norm_num)⟩

/-- C9: the guard of calculate_cagr fires exactly when initial_cost ≤ 0 or
num_years ≤ 0; at initial_cost = 100, final_cost = -50, num_years = 2 the
power has negative base -1/2 and non-integral exponent 1/2, so the call does
not return a real sentinel (the complex power makes round raise); and with the
additional precondition final_cost ≥ 0 the call always returns a real value. -/
theorem cagr_guard_correct :
    (∀ i f y : ℚ, calculate_cagr i f y = .guardZero ↔ i ≤ 0 ∨ y ≤ 0) ∧
    calculate_cagr 100 (-50) 2 = .raisesComplexRound (-(1 / 2)) (1 / 2) ∧
    (∀ i f y : ℚ, 0 < i → 0 < y → 0 ≤ f → calculate_cagr i f y = .ret (f / i) (1 / y)) := by
  refine ⟨fun i f y => ?_, ?_, fun i f y hi hy hf => ?_⟩
  · constructor
    · intro h
      by_cases hg : i ≤ 0 ∨ y ≤ 0
      · exact hg
      · rw [calculate_cagr, if_neg hg] at h
        split_ifs at h
    · intro hg
      rw [calculate_cagr, if_pos hg]
  · norm_num [calculate_cagr]
  · rw [calculate_cagr, if_neg (by push_neg; exact ⟨hi, hy⟩),
      if_neg (fun hc => absurd hc.1 (not_lt.mpr (div_nonneg hf hi.le)))]

/-- Witness for C9 at initial_cost = 100, final_cost = 121, num_years = 2. -/
theorem cagr_guard_correct_witness :
    calculate_cagr 100 121 2 = .ret (121 / 100) (1 / 2) :=
  cagr_guard_correct.2.2 100 121 2 (by norm_num) (by norm_num) (by norm_num)

theorem zipWith_self {α β : Type} (f : α → α → β) :
    ∀ l : List α, List.zipWith f l l = l.map (fun x => f x x)
  | [] => rfl
  | x :: xs => by simp [zipWith_self f xs]

theorem zipWith_map_same {α β γ δ : Type} (f : α → β) (g : α → γ) (h : β → γ → δ) :
    ∀ l : List α, List.zipWith h (l.map f) (l.map g) = l.map (fun x => h (f x) (g x))
  | [] => rfl
  | x :: xs => by simp [zipWith_map_same f g h xs]

theorem sum_map_zero {α : Type} (l : List α) : (l.map (fun _ => (0 : ℚ))).sum = 0 := by
  induction l with
  | nil => rfl
  | cons x xs ih => simp [ih]

theorem boolMask_map_map (pg : ℚ → Bool) (f : ℚ → ℚ) (a : List ℚ) :
    boolMask (a.map pg) (a.map f) = some ((a.filter pg).map f) := by
  rw [boolMask_some (by simp)]
  congr 1
  induction a with
  | nil => rfl
  | cons x xs ih => by_cases h : pg x <;> simp [List.filter_cons, h, ih]

/-! ### C1: WAPE with a zero denominator -/

/-- C1 (amended): when sum of absolute actuals is 0, calculate_wape does not
special-case the denominator: the IEEE division returns nan when the absolute
error sum is also 0 and +infinity otherwise, so the metric produces a
non-finite float rather than a finite sentinel (it does not raise, because the
module suppresses the numpy warning). -/
theorem wape_zero_denominator (a p : List ℚ) (hlen : a.length = p.length)
    (hden : (a.map (fun x => |x|)).sum = 0) :
    calculate_wape ⟨a, p, none, none⟩ =
      .val (if (List.zipWith (fun x y => |x - y|) a p).sum = 0 then .nan else .inf) := by
  have hS : 0 ≤ (List.zipWith (fun x y => |x - y|) a p).sum :=
    List.sum_nonneg (forall_mem_zipWith (fun x _ y _ => abs_nonneg (x - y)))
  simp only [calculate_wape, npBinop_length_eq _ hlen, hden]
  by_cases hs : (List.zipWith (fun x y => |x - y|) a p).sum = 0
  · simp [pyDiv, hs, pyMul100, pyRound]
  · simp [pyDiv, hs, lt_of_le_of_ne hS (Ne.symm hs), pyMul100, pyRound]

/-- Witness for C1 at actual = [0], predicted = [1]: the division 1/0 gives
+infinity. -/
theorem wape_zero_denominator_witness :
    calculate_wape ⟨[0], [1], none, none⟩ = .val .inf :=
  (wape_zero_denominator [0] [1] rfl (by norm_num)).trans (by norm_num)

/-- Counterexample to C1 as stated: at actual = [0, 0], predicted = [0, 0]
the denominator is 0 and calculate_wape evaluates 0/0, returning the float
nan — not the sentinel 0 and not a documented undefined marker such as None. -/
theorem wape_zero_denominator_nan_cx :
    calculate_wape ⟨[0, 0], [0, 0], none, none⟩ = .val .nan ∧
    MetricResult.val .nan ≠ .pyNone ∧ MetricResult.val .nan ≠ .val (.fin 0) := by
  refine ⟨?_, by simp, by simp⟩
  norm_num [calculate_wape, npBinop, pyDiv, pyMul100, pyRound]

/-! ### C2: totality on nonempty equal-length input -/

theorem calculate_mape_ne_error {e : AdvancedMetricsEvaluator}
    (h : e.actual.length = e.predicted.length) : calculate_mape e ≠ .error := by
  simp only [calculate_mape, boolMask_map_self,
    boolMask_some (show e.predicted.length = (e.actual.map fun x => decide (x ≠ 0)).length by
      simp [h.symm])]
  simp

theorem calculate_smape_ne_error {e : AdvancedMetricsEvaluator}
    (h : e.actual.length = e.predicted.length) : calculate_smape e ≠ .error := by
  simp only [calculate_smape, npBinop_length_eq _ h]
  rw [boolMask_some (by simp [h]), boolMask_some (by simp [h])]
  simp

theorem calculate_wape_ne_error {e : AdvancedMetricsEvaluator}
    (h : e.actual.length = e.predicted.length) : calculate_wape e ≠ .error := by
  simp only [calculate_wape, npBinop_length_eq _ h]
  simp

theorem calculate_mae_ne_error {e : AdvancedMetricsEvaluator}
    (h : e.actual.length = e.predicted.length) (hne : e.actual.length ≠ 0) :
    calculate_mae e ≠ .error := by
  have hp : e.predicted ≠ [] := fun hc => hne (by rw [h, hc]; rfl)
  simp [calculate_mae, h, hne, hp]

theorem calculate_rmse_ne_error {e : AdvancedMetricsEvaluator}
    (h : e.actual.length = e.predicted.length) (hne : e.actual.length ≠ 0) :
    calculate_rmse e ≠ .error := by
  have hp : e.predicted ≠ [] := fun hc => hne (by rw [h, hc]; rfl)
  simp [calculate_rmse, h, hne, hp]

theorem calculate_mdape_ne_error {e : AdvancedMetricsEvaluator}
    (h : e.actual.length = e.predicted.length) : calculate_mdape e ≠ .error := by
  simp only [calculate_mdape, boolMask_map_self,
    boolMask_some (show e.predicted.length = (e.actual.map fun x => decide (x ≠ 0)).length by
      simp [h.symm])]
  simp

theorem calculate_r2_ne_error {e : AdvancedMetricsEvaluator}
    (h : e.actual.length = e.predicted.length) (hne : e.actual.length ≠ 0) :
    calculate_r2 e ≠ .error := by
  simp only [calculate_r2, if_pos (And.intro h hne)]
  split_ifs <;> simp

theorem calculate_bias_ne_error {e : AdvancedMetricsEvaluator}
    (h : e.actual.length = e.predicted.length) : calculate_bias e ≠ .error := by
  simp only [calculate_bias, npBinop_length_eq _ h.symm]
  simp

theorem calculate_bias_percentage_ne_error {e : AdvancedMetricsEvaluator}
    (h : e.actual.length = e.predicted.length) : calculate_bias_percentage e ≠ .error := by
  simp only [calculate_bias_percentage, npBinop_length_eq _ h.symm]
  simp

/-- C2 (amended): on nonempty equal-length actual/predicted no
forecast-accuracy metric raises — though the zero-denominator fallbacks are
the IEEE values nan/infinity rather than finite documented values, and empty
sequences do raise in the sklearn-backed metrics (see the counterexample). -/
theorem metrics_never_raise_nonempty (a p : List ℚ)
    (hlen : a.length = p.length) (hne : a ≠ []) :
    calculate_mape ⟨a, p, none, none⟩ ≠ .error ∧
    calculate_smape ⟨a, p, none, none⟩ ≠ .error ∧
    calculate_wape ⟨a, p, none, none⟩ ≠ .error ∧
    calculate_mae ⟨a, p, none, none⟩ ≠ .error ∧
    calculate_rmse ⟨a, p, none, none⟩ ≠ .error ∧
    calculate_mdape ⟨a, p, none, none⟩ ≠ .error ∧
    calculate_r2 ⟨a, p, none, none⟩ ≠ .error ∧
    calculate_bias ⟨a, p, none, none⟩ ≠ .error ∧
    calculate_bias_percentage ⟨a, p, none, none⟩ ≠ .error := by
  have h0 : a.length ≠ 0 := fun hc => hne (List.length_eq_zero.mp hc)
  exact ⟨calculate_mape_ne_error hlen, calculate_smape_ne_error hlen,
    calculate_wape_ne_error hlen, calculate_mae_ne_error hlen h0,
    calculate_rmse_ne_error hlen h0, calculate_mdape_ne_error hlen,
    calculate_r2_ne_error hlen h0, calculate_bias_ne_error hlen,
    calculate_bias_percentage_ne_error hlen⟩

/-- Witness for C2 at actual = [1], predicted = [2]. -/
theorem metrics_never_raise_nonempty_witness :
    calculate_mape ⟨[1], [2], none, none⟩ ≠ .error ∧
    calculate_smape ⟨[1], [2], none, none⟩ ≠ .error ∧
    calculate_wape ⟨[1], [2], none, none⟩ ≠ .error ∧
    calculate_mae ⟨[1], [2], none, none⟩ ≠ .error ∧
    calculate_rmse ⟨[1], [2], none, none⟩ ≠ .error ∧
    calculate_mdape ⟨[1], [2], none, none⟩ ≠ .error ∧
    calculate_r2 ⟨[1], [2], none, none⟩ ≠ .error ∧
    calculate_bias ⟨[1], [2], none, none⟩ ≠ .error ∧
    calculate_bias_percentage ⟨[1], [2], none, none⟩ ≠ .error :=
  metrics_never_raise_nonempty [1] [2] rfl (by simp)

/-- Counterexample to C2 as stated: on empty sequences the sklearn-backed
metrics MAE, RMSE and R2 raise a ValueError (zero samples fail sklearn input
validation), so not every metric returns a documented fallback value on
degenerate input. -/
theorem empty_sequences_raise_cx :
    calculate_mae ⟨[], [], none, none⟩ = .error ∧
    calculate_rmse ⟨[], [], none, none⟩ = .error ∧
    calculate_r2 ⟨[], [], none, none⟩ = .error := by
  refine ⟨?_, ?_, ?_⟩ <;> norm_num [calculate_mae, calculate_rmse, calculate_r2]


/-! ### C3: round trip at predicted = actual -/

theorem map_ne_nil {α β : Type} {l : List α} (h : l ≠ []) (f : α → β) : l.map f ≠ [] := by
  cases l with
  | nil => exact absurd rfl h
  | cons x xs => simp

theorem calculate_mape_self {a : List ℚ} (hx : ∃ x ∈ a, x ≠ 0) :
    calculate_mape ⟨a, a, none, none⟩ = .val (.fin 0) := by
  obtain ⟨x, hxa, hx0⟩ := hx
  have hfil : a.filter (fun y => decide (y ≠ 0)) ≠ [] :=
    List.ne_nil_of_mem (List.mem_filter.mpr ⟨hxa, by simp [hx0]⟩)
  simp only [calculate_mape, boolMask_map_self, zipWith_self]
  rw [npMean_zeros (map_ne_nil hfil _) (fun z hz => by
    obtain ⟨y, _, rfl⟩ := List.mem_map.mp hz; simp)]
  simp [pyMul100, pyRound, roundDp_zero]

theorem calculate_smape_self {a : List ℚ} (hx : ∃ x ∈ a, x ≠ 0) :
    calculate_smape ⟨a, a, none, none⟩ = .val (.fin 0) := by
  obtain ⟨x, hxa, hx0⟩ := hx
  simp only [calculate_smape, npBinop_length_eq _ rfl, zipWith_self, List.map_map,
    boolMask_map_map, zipWith_map_same]
  have hfil : a.filter ((fun d => decide (d ≠ 0)) ∘ fun y => (|y| + |y|) / 2) ≠ [] := by
    refine List.ne_nil_of_mem (List.mem_filter.mpr ⟨hxa, ?_⟩)
    have hax : 0 < |x| := abs_pos.mpr hx0
    simp only [Function.comp, decide_eq_true_eq]
    positivity
  rw [npMean_zeros (map_ne_nil hfil _) (fun z hz => by
    obtain ⟨y, _, rfl⟩ := List.mem_map.mp hz; simp)]
  simp [pyMul100, pyRound, roundDp_zero]

theorem calculate_wape_self {a : List ℚ} (hx : ∃ x ∈ a, x ≠ 0) :
    calculate_wape ⟨a, a, none, none⟩ = .val (.fin 0) := by
  obtain ⟨x, hxa, hx0⟩ := hx
  have hpos : 0 < (a.map (fun y => |y|)).sum := by
    have hmem : |x| ∈ a.map (fun y => |y|) := List.mem_map_of_mem _ hxa
    have hle : |x| ≤ (a.map (fun y => |y|)).sum :=
      List.single_le_sum (fun y hy => by
        obtain ⟨z, _, rfl⟩ := List.mem_map.mp hy; exact abs_nonneg z) _ hmem
    exact lt_of_lt_of_le (abs_pos.mpr hx0) hle
  simp only [calculate_wape, npBinop_length_eq _ rfl, zipWith_self]
  have hz : (a.map (fun y => |y - y|)).sum = 0 := by
    simpa using sum_map_zero a
  rw [hz]
  simp [pyDiv, ne_of_gt hpos, pyMul100, pyRound, roundDp_zero]

theorem calculate_mae_self {a : List ℚ} (hne : a ≠ []) :
    calculate_mae ⟨a, a, none, none⟩ = .val (.fin 0) := by
  have h0 : a.length ≠ 0 := fun hc => hne (List.length_eq_zero.mp hc)
  simp only [calculate_mae, zipWith_self]
  rw [if_pos (show True ∧ a.length ≠ 0 from ⟨trivial, h0⟩)]
  rw [npMean_zeros (map_ne_nil hne _) (fun z hz => by
    obtain ⟨y, _, rfl⟩ := List.mem_map.mp hz; simp)]
  simp [pyRound, roundDp_zero]

theorem calculate_rmse_self {a : List ℚ} (hne : a ≠ []) :
    calculate_rmse ⟨a, a, none, none⟩ = .val (.fin 0) := by
  have h0 : a.length ≠ 0 := fun hc => hne (List.length_eq_zero.mp hc)
  simp only [calculate_rmse, zipWith_self]
  rw [if_pos (show True ∧ a.length ≠ 0 from ⟨trivial, h0⟩)]
  have hz : (a.map (fun y => (y - y) ^ 2)).sum = 0 := by
    simpa using sum_map_zero a
  rw [hz]
  norm_num [pySqrtRound2, ratFloorSqrt]

theorem calculate_bias_self {a : List ℚ} (hne : a ≠ []) :
    calculate_bias ⟨a, a, none, none⟩ = .val (.fin 0) := by
  simp only [calculate_bias, npBinop_length_eq _ rfl, zipWith_self]
  rw [npMean_zeros (map_ne_nil hne _) (fun z hz => by
    obtain ⟨y, _, rfl⟩ := List.mem_map.mp hz; simp)]
  simp [pyRound, roundDp_zero]

theorem calculate_r2_self {a : List ℚ} (h2 : 2 ≤ a.length) :
    calculate_r2 ⟨a, a, none, none⟩ = .val (.fin 1) := by
  have h0 : a.length ≠ 0 := by omega
  simp only [calculate_r2, zipWith_self]
  rw [if_pos (show True ∧ a.length ≠ 0 from ⟨trivial, h0⟩), if_neg (by omega : ¬a.length < 2)]
  have hz : (a.map (fun y => (y - y) ^ 2)).sum = 0 := by
    simpa using sum_map_zero a
  rw [hz]
  norm_num [pyRound, roundDp, roundHalfEven]

/-- C3 (amended): if predicted equals actual elementwise on a nonempty
sequence with at least one nonzero entry, then MAE, RMSE, MAPE, sMAPE, WAPE
and Bias are all 0, and R2 is 1 provided the sequence has at least two
entries (sklearn returns nan for a single sample, see the counterexample). -/
theorem roundtrip_zero (a : List ℚ) (hne : a ≠ []) (hx : ∃ x ∈ a, x ≠ 0) :
    calculate_mae ⟨a, a, none, none⟩ = .val (.fin 0) ∧
    calculate_rmse ⟨a, a, none, none⟩ = .val (.fin 0) ∧
    calculate_mape ⟨a, a, none, none⟩ = .val (.fin 0) ∧
    calculate_smape ⟨a, a, none, none⟩ = .val (.fin 0) ∧
    calculate_wape ⟨a, a, none, none⟩ = .val (.fin 0) ∧
    calculate_bias ⟨a, a, none, none⟩ = .val (.fin 0) ∧
    (2 ≤ a.length → calculate_r2 ⟨a, a, none, none⟩ = .val (.fin 1)) :=
  ⟨calculate_mae_self hne, calculate_rmse_self hne, calculate_mape_self hx,
    calculate_smape_self hx, calculate_wape_self hx, calculate_bias_self hne,
    fun h2 => calculate_r2_self h2⟩

/-- Witness for C3 at actual = predicted = [1, 2]. -/
theorem roundtrip_zero_witness :
    calculate_mae ⟨[1, 2], [1, 2], none, none⟩ = .val (.fin 0) ∧
    calculate_r2 ⟨[1, 2], [1, 2], none, none⟩ = .val (.fin 1) := by
  have h := roundtrip_zero [1, 2] (by simp) ⟨1, by simp, by norm_num⟩
  exact ⟨h.1, h.2.2.2.2.2.2 (by norm_num)⟩

/-- Counterexample to C3 as stated: at the singleton actual = predicted = [5]
(nonempty, nonzero) sklearn r2_score warns and returns nan, not 1. -/
theorem r2_singleton_nan_cx :
    calculate_r2 ⟨[5], [5], none, none⟩ = .val .nan ∧
    MetricResult.val .nan ≠ .val (.fin 1) := by
  refine ⟨?_, by simp⟩
  norm_num [calculate_r2]

/-! ### C5: mismatched lengths -/

theorem calculate_mape_mismatch {e : AdvancedMetricsEvaluator}
    (h : e.actual.length ≠ e.predicted.length) : calculate_mape e = .error := by
  simp only [calculate_mape, boolMask_map_self,
    boolMask_none (show e.predicted.length ≠ (e.actual.map fun x => decide (x ≠ 0)).length by
      simpa using fun hc => h hc.symm)]

theorem calculate_mdape_mismatch {e : AdvancedMetricsEvaluator}
    (h : e.actual.length ≠ e.predicted.length) : calculate_mdape e = .error := by
  simp only [calculate_mdape, boolMask_map_self,
    boolMask_none (show e.predicted.length ≠ (e.actual.map fun x => decide (x ≠ 0)).length by
      simpa using fun hc => h hc.symm)]

theorem calculate_smape_mismatch {e : AdvancedMetricsEvaluator}
    (h : e.actual.length ≠ e.predicted.length)
    (ha : e.actual.length ≠ 1) (hp : e.predicted.length ≠ 1) : calculate_smape e = .error := by
  simp only [calculate_smape, npBinop_none _ h ha hp]

theorem calculate_wape_mismatch {e : AdvancedMetricsEvaluator}
    (h : e.actual.length ≠ e.predicted.length)
    (ha : e.actual.length ≠ 1) (hp : e.predicted.length ≠ 1) : calculate_wape e = .error := by
  simp only [calculate_wape, npBinop_none _ h ha hp]

theorem calculate_mae_mismatch {e : AdvancedMetricsEvaluator}
    (h : e.actual.length ≠ e.predicted.length) : calculate_mae e = .error := by
  simp [calculate_mae, h]

theorem calculate_rmse_mismatch {e : AdvancedMetricsEvaluator}
    (h : e.actual.length ≠ e.predicted.length) : calculate_rmse e = .error := by
  simp [calculate_rmse, h]

theorem calculate_r2_mismatch {e : AdvancedMetricsEvaluator}
    (h : e.actual.length ≠ e.predicted.length) : calculate_r2 e = .error := by
  simp [calculate_r2, h]

theorem calculate_bias_mismatch {e : AdvancedMetricsEvaluator}
    (h : e.actual.length ≠ e.predicted.length)
    (ha : e.actual.length ≠ 1) (hp : e.predicted.length ≠ 1) : calculate_bias e = .error := by
  simp only [calculate_bias, npBinop_none _ (fun hc => h hc.symm) hp ha]

theorem calculate_bias_percentage_mismatch {e : AdvancedMetricsEvaluator}
    (h : e.actual.length ≠ e.predicted.length)
    (ha : e.actual.length ≠ 1) (hp : e.predicted.length ≠ 1) :
    calculate_bias_percentage e = .error := by
  simp only [calculate_bias_percentage, npBinop_none _ (fun hc => h hc.symm) hp ha]

/-- C5 (amended): on mismatched lengths every forecast-accuracy metric raises,
provided neither sequence has length 1; a length-1 operand is broadcast by
numpy instead, and then sMAPE, WAPE, Bias and Bias% silently return values
(see the counterexample). -/
theorem mismatched_lengths_raise (a p : List ℚ)
    (h : a.length ≠ p.length) (ha : a.length ≠ 1) (hp : p.length ≠ 1) :
    calculate_mape ⟨a, p, none, none⟩ = .error ∧
    calculate_smape ⟨a, p, none, none⟩ = .error ∧
    calculate_wape ⟨a, p, none, none⟩ = .error ∧
    calculate_mae ⟨a, p, none, none⟩ = .error ∧
    calculate_rmse ⟨a, p, none, none⟩ = .error ∧
    calculate_mdape ⟨a, p, none, none⟩ = .error ∧
    calculate_r2 ⟨a, p, none, none⟩ = .error ∧
    calculate_bias ⟨a, p, none, none⟩ = .error ∧
    calculate_bias_percentage ⟨a, p, none, none⟩ = .error :=
  ⟨calculate_mape_mismatch h, calculate_smape_mismatch h ha hp,
    calculate_wape_mismatch h ha hp, calculate_mae_mismatch h,
    calculate_rmse_mismatch h, calculate_mdape_mismatch h,
    calculate_r2_mismatch h, calculate_bias_mismatch h ha hp,
    calculate_bias_percentage_mismatch h ha hp⟩

/-- Witness for C5 at actual = [1, 2], predicted = [1, 2, 3]. -/
theorem mismatched_lengths_raise_witness :
    calculate_mape ⟨[1, 2], [1, 2, 3], none, none⟩ = .error ∧
    calculate_smape ⟨[1, 2], [1, 2, 3], none, none⟩ = .error ∧
    calculate_wape ⟨[1, 2], [1, 2, 3], none, none⟩ = .error ∧
    calculate_mae ⟨[1, 2], [1, 2, 3], none, none⟩ = .error ∧
    calculate_rmse ⟨[1, 2], [1, 2, 3], none, none⟩ = .error ∧
    calculate_mdape ⟨[1, 2], [1, 2, 3], none, none⟩ = .error ∧
    calculate_r2 ⟨[1, 2], [1, 2, 3], none, none⟩ = .error ∧
    calculate_bias ⟨[1, 2], [1, 2, 3], none, none⟩ = .error ∧
    calculate_bias_percentage ⟨[1, 2], [1, 2, 3], none, none⟩ = .error :=
  mismatched_lengths_raise [1, 2] [1, 2, 3] (by simp) (by simp) (by simp)

/-- Counterexample to C5 as stated: actual = [1, 2, 3] against the length-1
predicted = [5] is a mismatched pair, yet numpy broadcasting lets
calculate_wape return 150.0 silently instead of failing fast. -/
theorem broadcast_length_one_silent_cx :
    calculate_wape ⟨[1, 2, 3], [5], none, none⟩ = .val (.fin 150) ∧
    MetricResult.val (.fin 150) ≠ .error := by
  refine ⟨?_, by simp⟩
  norm_num [calculate_wape, npBinop, pyDiv, pyMul100, pyRound, roundDp, roundHalfEven,
    List.headI]

/-! ### C4 and C10: PICP -/

theorem calculate_picp_eval (a p lo hi : List ℚ) (hlo : lo.length = a.length)
    (hhi : hi.length = a.length) :
    calculate_picp ⟨a, p, some lo, some hi⟩ =
      .val (pyRound 2 (pyMul100 (pyDiv
        (.fin (((List.zipWith (fun g l => g && l)
          (List.zipWith (fun x l => decide (l ≤ x)) a lo)
          (List.zipWith (fun x u => decide (x ≤ u)) a hi)).countP id : ℕ) : ℚ))
        (.fin (a.length : ℚ))))) := by
  simp only [calculate_picp, npBinop_length_eq _ hlo.symm, npBinop_length_eq _ hhi.symm,
    npBinop_length_eq _ (show (List.zipWith (fun x l => decide (l ≤ x)) a lo).length =
      (List.zipWith (fun x u => decide (x ≤ u)) a hi).length by simp [hlo, hhi])]

theorem picp_val_form (k n : ℕ) (hn : ((n : ℚ)) ≠ 0) :
    pyRound 2 (pyMul100 (pyDiv (.fin (k : ℚ)) (.fin (n : ℚ)))) =
      .fin (roundDp 2 ((k : ℚ) / n * 100)) := by
  simp [pyDiv, hn, pyMul100, pyRound]

theorem countInside_le (a : List ℚ) : ∀ (lo1 hi1 lo2 hi2 : List ℚ),
    lo1.length = a.length → hi1.length = a.length →
    lo2.length = a.length → hi2.length = a.length →
    (∀ q ∈ List.zip lo2 lo1, q.1 ≤ q.2) →
    (∀ q ∈ List.zip hi1 hi2, q.1 ≤ q.2) →
    (List.zipWith (fun g l => g && l)
      (List.zipWith (fun x l => decide (l ≤ x)) a lo1)
      (List.zipWith (fun x u => decide (x ≤ u)) a hi1)).countP id ≤
    (List.zipWith (fun g l => g && l)
      (List.zipWith (fun x l => decide (l ≤ x)) a lo2)
      (List.zipWith (fun x u => decide (x ≤ u)) a hi2)).countP id := by
  induction a with
  | nil => intro lo1 hi1 lo2 hi2 _ _ _ _ _ _; simp
  | cons x xs ih =>
      intro lo1 hi1 lo2 hi2 h1 h2 h3 h4 hlo hhi
      cases lo1 with
      | nil => simp at h1
      | cons l1 ls1 =>
      cases hi1 with
      | nil => simp at h2
      | cons u1 us1 =>
      cases lo2 with
      | nil => simp at h3
      | cons l2 ls2 =>
      cases hi2 with
      | nil => simp at h4
      | cons u2 us2 =>
      have hl : l2 ≤ l1 := hlo (l2, l1) (by simp)
      have hu : u1 ≤ u2 := hhi (u1, u2) (by simp)
      have tail := ih ls1 us1 ls2 us2 (by simpa using h1) (by simpa using h2)
        (by simpa using h3) (by simpa using h4)
        (fun q hq => hlo q (by simp [hq]))
        (fun q hq => hhi q (by simp [hq]))
      simp only [List.zipWith_cons_cons, List.countP_cons, id]
      have himp : (decide (l1 ≤ x) && decide (x ≤ u1)) = true →
          (decide (l2 ≤ x) && decide (x ≤ u2)) = true := by
        intro hb
        simp only [Bool.and_eq_true, decide_eq_true_eq] at hb ⊢
        exact ⟨le_trans hl hb.1, le_trans hb.2 hu⟩
      split_ifs with hA hB
      · omega
      · exact absurd (himp hA) hB
      · omega
      · omega

/-- C4 (amended): for nonempty actual and interval bounds of the same length,
widening the interval never decreases PICP (on an empty actual both PICP
values are nan and the IEEE comparison is false, see the counterexample). -/
theorem picp_monotone_widening (a lo1 hi1 lo2 hi2 : List ℚ)
    (h1 : lo1.length = a.length) (h2 : hi1.length = a.length)
    (h3 : lo2.length = a.length) (h4 : hi2.length = a.length) (hne : a ≠ [])
    (hlo : ∀ q ∈ List.zip lo2 lo1, q.1 ≤ q.2)
    (hhi : ∀ q ∈ List.zip hi1 hi2, q.1 ≤ q.2) :
    ∃ q1 q2 : ℚ,
      calculate_picp ⟨a, a, some lo1, some hi1⟩ = .val (.fin q1) ∧
      calculate_picp ⟨a, a, some lo2, some hi2⟩ = .val (.fin q2) ∧ q1 ≤ q2 := by
  have h0 : a.length ≠ 0 := fun hc => hne (List.length_eq_zero.mp hc)
  have hn : ((a.length : ℚ)) ≠ 0 := Nat.cast_ne_zero.mpr h0
  rw [calculate_picp_eval a a lo1 hi1 h1 h2, calculate_picp_eval a a lo2 hi2 h3 h4,
    picp_val_form _ _ hn, picp_val_form _ _ hn]
  refine ⟨_, _, rfl, rfl, roundDp_mono 2 ?_⟩
  have hk : ((List.zipWith (fun g l => g && l)
      (List.zipWith (fun x l => decide (l ≤ x)) a lo1)
      (List.zipWith (fun x u => decide (x ≤ u)) a hi1)).countP id : ℚ) ≤
      ((List.zipWith (fun g l => g && l)
      (List.zipWith (fun x l => decide (l ≤ x)) a lo2)
      (List.zipWith (fun x u => decide (x ≤ u)) a hi2)).countP id : ℚ) := by
    exact_mod_cast countInside_le a lo1 hi1 lo2 hi2 h1 h2 h3 h4 hlo hhi
  have hpos : (0 : ℚ) < a.length := by
    have := Nat.pos_of_ne_zero h0
    exact_mod_cast this
  gcongr

/-- Witness for C4 at actual = [1], narrow bounds [1], [1], wide bounds
[0], [2]. -/
theorem picp_monotone_widening_witness :
    ∃ q1 q2 : ℚ,
      calculate_picp ⟨[1], [1], some [1], some [1]⟩ = .val (.fin q1) ∧
      calculate_picp ⟨[1], [1], some [0], some [2]⟩ = .val (.fin q2) ∧ q1 ≤ q2 :=
  picp_monotone_widening [1] [1] [1] [0] [2] rfl rfl rfl rfl (by simp)
    (by intro q hq; simp at hq; subst hq; norm_num)
    (by intro q hq; simp at hq; subst hq; norm_num)

/-- Counterexample to C4 as stated: on the empty actual sequence with empty
bounds both PICP values are the float nan, and the IEEE comparison
nan >= nan is false, so the quantification over every actual sequence fails
at the empty one. -/
theorem picp_empty_nan_cx :
    calculate_picp ⟨[], [], some [], some []⟩ = .val .nan ∧
    pyLe .nan .nan = false := by
  refine ⟨?_, rfl⟩
  norm_num [calculate_picp, npBinop, pyDiv, pyMul100, pyRound]

theorem specInsideCount_cons (x l u : ℚ) (xs ls us : List ℚ) :
    specInsideCount (x :: xs) (l :: ls) (u :: us) =
      specInsideCount xs ls us + (if l ≤ x ∧ x ≤ u then 1 else 0) := by
  simp [specInsideCount, List.zip_cons_cons, List.countP_cons]

theorem countP_inside_eq (a : List ℚ) : ∀ (lo hi : List ℚ),
    lo.length = a.length → hi.length = a.length →
    (List.zipWith (fun g l => g && l)
      (List.zipWith (fun x l => decide (l ≤ x)) a lo)
      (List.zipWith (fun x u => decide (x ≤ u)) a hi)).countP id = specInsideCount a lo hi := by
  induction a with
  | nil => intro lo hi _ _; simp [specInsideCount]
  | cons x xs ih =>
      intro lo hi h1 h2
      cases lo with
      | nil => simp at h1
      | cons l ls =>
      cases hi with
      | nil => simp at h2
      | cons u us =>
      rw [specInsideCount_cons]
      simp only [List.zipWith_cons_cons, List.countP_cons, id]
      rw [ih ls us (by simpa using h1) (by simpa using h2)]
      simp [Bool.and_eq_true, decide_eq_true_eq]

/-- C10: calculate_picp uses inclusive endpoints on both sides: with both
bounds present and all three sequences of the same nonzero length the result
is round(100 * (number of entries with lower <= actual <= upper) / len, 2);
with either bound absent the call returns Python None. -/
theorem picp_inclusive_endpoints :
    (∀ (a lo hi p : List ℚ), lo.length = a.length → hi.length = a.length → a ≠ [] →
      calculate_picp ⟨a, p, some lo, some hi⟩ =
        .val (.fin (roundDp 2 (100 * (specInsideCount a lo hi : ℚ) / a.length)))) ∧
    (∀ (a p : List ℚ) (up : Option (List ℚ)), calculate_picp ⟨a, p, none, up⟩ = .pyNone) ∧
    (∀ (a p lo : List ℚ), calculate_picp ⟨a, p, some lo, none⟩ = .pyNone) := by
  refine ⟨fun a lo hi p hlo hhi hne => ?_, fun a p up => rfl, fun a p lo => rfl⟩
  have h0 : a.length ≠ 0 := fun hc => hne (List.length_eq_zero.mp hc)
  have hn : ((a.length : ℚ)) ≠ 0 := Nat.cast_ne_zero.mpr h0
  rw [calculate_picp_eval a p lo hi hlo hhi, countP_inside_eq a lo hi hlo hhi,
    picp_val_form _ _ hn,
    show (100 : ℚ) * (specInsideCount a lo hi : ℚ) / a.length =
      (specInsideCount a lo hi : ℚ) / a.length * 100 from by ring]

/-- Witness for C10 at actual = [1, 2, 3], lower = [1, 1, 1],
upper = [2, 2, 2]: two of three entries are inside (both endpoint hits
included), and round(200/3, 2) = 66.67. -/
theorem picp_inclusive_endpoints_witness :
    calculate_picp ⟨[1, 2, 3], [1, 2, 3], some [1, 1, 1], some [2, 2, 2]⟩ =
      .val (.fin (6667 / 100)) := by
  have h := picp_inclusive_endpoints.1 [1, 2, 3] [1, 1, 1] [2, 2, 2] [1, 2, 3] rfl rfl (by simp)
  rw [h]
  norm_num [specInsideCount, List.countP, List.countP.go, roundDp, roundHalfEven]

/-! ### C6: the metric battery -/

/-- C6 (amended): get_all_forecast_metrics returns the named mapping of the
ten metrics MAPE, sMAPE, WAPE, MAE, RMSE, MdAPE, R2, Bias, Bias %, PICP, each
entry being exactly the corresponding individually-callable metric; MASE is
not included in the mapping (it requires the naive_forecast argument and is
only independently callable). -/
theorem get_all_forecast_metrics_battery (e : AdvancedMetricsEvaluator) :
    get_all_forecast_metrics e =
      [("MAPE (%)", calculate_mape e),
       ("sMAPE (%)", calculate_smape e),
       ("WAPE (%)", calculate_wape e),
       ("MAE (INR)", calculate_mae e),
       ("RMSE (INR)", calculate_rmse e),
       ("MdAPE (%)", calculate_mdape e),
       ("R¬≤ Score", calculate_r2 e),
       ("Bias (INR)", calculate_bias e),
       ("Bias (%)", calculate_bias_percentage e),
       ("PICP (%)", calculate_picp e)] ∧
    (∀ r : MetricResult, ("MASE", r) ∉ get_all_forecast_metrics e) := by
  refine ⟨rfl, fun r hr => ?_⟩
  simp [get_all_forecast_metrics] at hr

/-- Counterexample to C6 as stated: the mapping has exactly ten entries and
no key mentions MASE, so the full eleven-metric battery of the claim
(including MASE) is not what the convenience operation returns. -/
theorem get_all_no_mase_cx :
    ((get_all_forecast_metrics ⟨[1], [1], none, none⟩).map Prod.fst).contains "MASE" = false ∧
    (get_all_forecast_metrics ⟨[1], [1], none, none⟩).length = 10 := by
  constructor
  · simp [get_all_forecast_metrics]
  · rfl
